import Mathlib

/-!
Shallow embedding of `src/validgenfinal.py` (Mullvad account validator).

The program enumerates a contiguous range of 16-digit numeric identifiers,
probes an HTTP endpoint for each, classifies the response, and persists
identifiers reported valid.  We embed the pipeline state (`AccountValidator`,
mirroring the Python class attributes plus the output file contents), the
per-candidate operations `fetch_response` / `process_response`, configuration
(`set_custom_range`, `configure_threads`), the run loop `run_validation`
(the two thread pools abstracted as a sequential drain of completions, the
network abstracted as an oracle `String → NetResult`), the guarded statistics
divisions, and a small interleaving semantics for the unsynchronized
`count += 1` attribute increments executed by concurrent worker threads.
-/

/-- Decimal string of a natural number; model of Python `str(n)` for `n ≥ 0`.
`Nat.repr` produces the usual base-10 numeral, matching CPython's `str`. -/
def pyNatStr (n : Nat) : String := Nat.repr n

/-- Model of Python `str(i)` on an arbitrary integer: a minus sign followed by
the decimal digits when negative, plain decimal digits otherwise. -/
def pyIntStr (i : Int) : String :=
  if i < 0 then "-" ++ pyNatStr i.natAbs else pyNatStr i.toNat

/-- Model of Python `len(str(i))`, the printed decimal width used by the
range-configuration check at src/validgenfinal.py:141. -/
def pyStrLen (i : Int) : Nat := (pyIntStr i).length

/-- Number of decimal digits of an integer's magnitude, the sign not counted:
the spec's notion of a bound being "16 decimal digits".  For negative inputs
this differs from the printed width `pyStrLen`, which counts the minus sign. -/
def decimalDigits (i : Int) : Nat := (pyNatStr i.natAbs).length

/-- Numeric value of a decimal digit character. -/
def digitVal (c : Char) : Nat := c.toNat - 48

/-- Parse a nonempty all-digit character list as a natural number. -/
def parseNatDigits (l : List Char) : Option Nat :=
  if l ≠ [] ∧ l.all Char.isDigit then
    some (l.foldl (fun a c => a * 10 + digitVal c) 0)
  else none

/-- Model of Python `int(s)` on the inputs this program meets: an optional
leading minus sign followed by decimal digits; anything else raises
`ValueError`, modelled as `none`. -/
def pyInt (s : String) : Option Int :=
  match s.data with
  | '-' :: rest => (parseNatDigits rest).map (fun n => -(n : Int))
  | l => (parseNatDigits l).map (fun n => (n : Int))

/-- Model of Python `range(start, stop)`: the integers from `start` (inclusive)
to `stop` (exclusive), empty when `stop ≤ start`. -/
def pyRange (start stop : Int) : List Int :=
  (List.range (stop - start).toNat).map (fun k : Nat => start + (k : Int))

/-- Result of one `requests.get` call (src/validgenfinal.py:181): either an HTTP
response carrying a status code and headers, or a raised
`requests.RequestException` (timeout, DNS failure, connection reset). -/
inductive NetResult where
  | response (status_code : Nat) (headers : List (String × String))
  | requestException
deriving DecidableEq

/-- The mutable state of the program: the `AccountValidator` instance
attributes set in `__init__` (src/validgenfinal.py:73-83) together with the
contents of the `valid_accounts.txt` output file, one line per entry. -/
structure AccountValidator where
  valid_count : Nat
  checked_count : Nat
  error_count : Nat
  rate_limit_count : Nat
  fetch_workers : Int
  process_workers : Int
  range_start : Int
  range_end : Int
  is_running : Bool
  output : List String
deriving DecidableEq

/-- The freshly constructed validator, `AccountValidator.__init__`
(src/validgenfinal.py:73-83), with an empty output store. -/
def initState : AccountValidator :=
  { valid_count := 0
    checked_count := 0
    error_count := 0
    rate_limit_count := 0
    fetch_workers := 10
    process_workers := 5
    range_start := 1000000000000000
    range_end := 1000000000009999
    is_running := false
    output := [] }

/-- `setup_files` (src/validgenfinal.py:66-70): truncates the output file. -/
def setup_files (s : AccountValidator) : AccountValidator :=
  { s with output := [] }

/-- `AccountValidator.fetch_response` (src/validgenfinal.py:178-187).  The
outcome of the HTTP call is supplied by the network oracle.  On a response,
`checked_count` is incremented and `(account, status, headers)` is returned;
on a `RequestException`, `error_count` is incremented and
`(account, None, None)` is returned. -/
def fetch_response (s : AccountValidator) (account_number : String)
    (net : NetResult) :
    AccountValidator ×
      (String × Option Nat × Option (List (String × String))) :=
  match net with
  | .response code hdrs =>
      ({ s with checked_count := s.checked_count + 1 },
        (account_number, some code, some hdrs))
  | .requestException =>
      ({ s with error_count := s.error_count + 1 }, (account_number, none, none))

/-- `AccountValidator.process_response` (src/validgenfinal.py:189-210).
`headers` is carried but unused, as in the source.  `persistRaises` models
whether the only fallible operation in the `try` block — opening/appending the
output file in the status-200 branch (lines 193-194) — raises; the `except`
handler (lines 208-210) then increments `error_count` and swallows the
exception. -/
def process_response (s : AccountValidator) (account_number : String)
    (status_code : Nat) (headers : Option (List (String × String)))
    (persistRaises : Bool) : AccountValidator :=
  if status_code = 200 then
    if persistRaises then { s with error_count := s.error_count + 1 }
    else { s with output := s.output ++ [account_number],
                  valid_count := s.valid_count + 1 }
  else if status_code = 429 then
    { s with rate_limit_count := s.rate_limit_count + 1 }
  else if status_code = 404 then s
  else s

/-- The reasons `set_custom_range` rejects a parsed pair of bounds; the spec's
`InvalidRangeError` taxonomy. -/
inductive InvalidRangeError where
  | notSixteenDigits
  | startNotLessThanEnd
deriving DecidableEq

/-- The bound checks of `set_custom_range` (src/validgenfinal.py:141-147),
classified by the spec's `InvalidRangeError`. -/
def rangeError (start end_ : Int) : Option InvalidRangeError :=
  if pyStrLen start ≠ 16 ∨ pyStrLen end_ ≠ 16 then some .notSixteenDigits
  else if start ≥ end_ then some .startNotLessThanEnd
  else none

/-- `AccountValidator.set_custom_range` (src/validgenfinal.py:131-156) on the
two prompted strings.  `int(...)` failing (`ValueError`) or a failed bound
check returns `False` and leaves the state untouched; on success both bounds
are stored and `True` is returned. -/
def set_custom_range (s : AccountValidator) (startStr endStr : String) :
    Bool × AccountValidator :=
  match pyInt startStr, pyInt endStr with
  | some start, some end_ =>
      if pyStrLen start ≠ 16 ∨ pyStrLen end_ ≠ 16 then (false, s)
      else if start ≥ end_ then (false, s)
      else (true, { s with range_start := start, range_end := end_ })
  | _, _ => (false, s)

/-- `AccountValidator.configure_threads` (src/validgenfinal.py:158-176) on the
two prompted strings: parsed values are clamped by
`max(1, min(fetch, 50))` and `max(1, min(process, 20))`; a `ValueError`
returns `False` with the state untouched. -/
def configure_threads (s : AccountValidator) (fetchStr processStr : String) :
    Bool × AccountValidator :=
  match pyInt fetchStr, pyInt processStr with
  | some fetch, some process =>
      (true, { s with fetch_workers := max 1 (min fetch 50),
                      process_workers := max 1 (min process 20) })
  | _, _ => (false, s)

/-- The candidate generator of `run_validation` (src/validgenfinal.py:251):
`(str(i) for i in range(range_start, range_end + 1))`. -/
def account_numbers (range_start range_end : Int) : List String :=
  (pyRange range_start (range_end + 1)).map pyIntStr

/-- One drained fetch completion of the run loop
(src/validgenfinal.py:262-266): the fetch result is taken, and the outcome is
submitted to `process_response` exactly when its status code is not `None`. -/
def runStep (net : String → NetResult) (s : AccountValidator)
    (account : String) : AccountValidator :=
  match fetch_response s account (net account) with
  | (s1, (acct, some code, hdrs)) => process_response s1 acct code hdrs false
  | (s1, (_, none, _)) => s1

/-- The core of `AccountValidator.run_validation` (src/validgenfinal.py:212-292)
with the network abstracted as an oracle: truncate the output file
(`setup_files`), set `is_running`, drain every candidate's fetch completion
into the process stage, and clear `is_running`.  The two bounded thread pools
are abstracted as a sequential drain of per-candidate steps; each candidate's
fetch precedes its process step, as the source guarantees. -/
def run_validation (s : AccountValidator) (net : String → NetResult) :
    AccountValidator :=
  let s0 := { setup_files s with is_running := true }
  let s1 := (account_numbers s.range_start s.range_end).foldl (runStep net) s0
  { s1 with is_running := false }

/-- Whether a network outcome is an HTTP response with status 200. -/
def status200 (r : NetResult) : Bool :=
  match r with
  | .response code _ => code == 200
  | .requestException => false

/-- Python division, which raises `ZeroDivisionError` on a zero divisor;
numeric values modelled as rationals. -/
def pyDiv (a b : Rat) : Except String Rat :=
  if b = 0 then .error "ZeroDivisionError" else .ok (a / b)

/-- The throughput shown by `create_stats_table` (src/validgenfinal.py:91):
`checked_count / elapsed if elapsed > 0 else 0`. -/
def stats_rate (checked_count : Nat) (elapsed : Rat) : Except String Rat :=
  if elapsed > 0 then pyDiv checked_count elapsed else .ok 0

/-- The checked percentage of the final summary (src/validgenfinal.py:300):
`(checked_count / total_accounts * 100) if total_accounts > 0 else 0`. -/
def final_checked_pct (checked_count : Nat) (total_accounts : Int) :
    Except String Rat :=
  if total_accounts > 0 then
    (pyDiv checked_count (total_accounts : Rat)).map (fun q => q * 100)
  else .ok 0

/-- The valid percentage of the final summary (src/validgenfinal.py:301):
`(valid_count / checked_count * 100) if checked_count > 0 else 0`. -/
def final_valid_pct (valid_count checked_count : Nat) : Except String Rat :=
  if checked_count > 0 then
    (pyDiv valid_count checked_count).map (fun q => q * 100)
  else .ok 0

/-- The throughput cell of the final summary (src/validgenfinal.py:307):
`f"{checked_count/elapsed:.2f}/s" if elapsed > 0 else "-"`; `none` models the
dash. -/
def final_throughput (checked_count : Nat) (elapsed : Rat) :
    Except String (Option Rat) :=
  if elapsed > 0 then (pyDiv checked_count elapsed).map some else .ok none

/-- Progress of one worker thread through the unsynchronized attribute
increment `self.valid_count += 1` (src/validgenfinal.py:195; likewise
lines 182, 185, 199, 209): the thread has not yet loaded the counter, has
loaded the value `v` but not yet stored, or has stored and finished.  CPython
executes the load and the store as separate interpreter steps, and the GIL may
switch threads between them. -/
inductive ThState where
  | ready
  | loaded (v : Nat)
  | done
deriving DecidableEq

/-- Shared counter plus the per-thread progress of `n` concurrent
unsynchronized increments. -/
structure IncState where
  counter : Nat
  threads : Nat → ThState

/-- One scheduler step: thread `tid` executes its next interpreter step of
`counter += 1` — first the load of the current counter value, then the store
of `loaded value + 1`.  A finished thread does nothing. -/
def incStep (s : IncState) (tid : Nat) : IncState :=
  match s.threads tid with
  | .ready =>
      { s with threads := fun j => if j = tid then .loaded s.counter else s.threads j }
  | .loaded v =>
      { counter := v + 1,
        threads := fun j => if j = tid then .done else s.threads j }
  | .done => s

/-- Run a schedule (a list of thread ids, each id executing its next step)
from a zero counter with every thread ready. -/
def runSched (sched : List Nat) : IncState :=
  sched.foldl incStep { counter := 0, threads := fun _ => .ready }

/-- The five-candidate range of the spec's end-to-end timeout scenario:
`[1000000000000000, 1000000000000004]` configured on a fresh validator. -/
def timeoutRange : AccountValidator :=
  { initState with range_start := 1000000000000000, range_end := 1000000000000004 }

/-- A network in which every probe raises a `RequestException` (times out). -/
def netTimeout : String → NetResult := fun _ => NetResult.requestException

/-- For a nonzero `n` with enough fuel, `Nat.toDigitsCore` prepends the
base-10 digit characters of `n` (most significant first) to the accumulator. -/
theorem toDigitsCore_eq_digits :
    ∀ (n : Nat), n ≠ 0 → ∀ (f : Nat) (ds : List Char), n < f →
      Nat.toDigitsCore 10 f n ds =
        ((Nat.digits 10 n).map Nat.digitChar).reverse ++ ds := by
  intro n
  induction n using Nat.strong_induction_on with
  | _ n ih =>
    intro hn f ds hf
    cases f with
    | zero => omega
    | succ f =>
      rw [Nat.toDigitsCore]
      by_cases h : n / 10 = 0
      · simp only [h, if_true]
        rw [Nat.digits_def' (by norm_num : (1:ℕ) < 10) (Nat.pos_of_ne_zero hn), h,
          Nat.digits_zero]
        simp
      · simp only [h, if_false]
        rw [ih (n / 10) (by omega) h f (Nat.digitChar (n % 10) :: ds) (by omega)]
        rw [Nat.digits_def' (by norm_num : (1:ℕ) < 10) (Nat.pos_of_ne_zero hn)]
        simp

/-- A nonzero natural prints as its base-10 digit list, most significant
digit first. -/
theorem repr_eq_digitsString (n : Nat) (hn : n ≠ 0) :
    Nat.repr n = (((Nat.digits 10 n).map Nat.digitChar).reverse).asString := by
  show (Nat.toDigits 10 n).asString = _
  rw [Nat.toDigits, toDigitsCore_eq_digits n hn (n + 1) [] (Nat.lt_succ_self n)]
  simp

/-- Digit characters of distinct decimal digits are distinct. -/
theorem digitChar_inj_lt :
    ∀ a : Nat, a < 10 → ∀ b : Nat, b < 10 → Nat.digitChar a = Nat.digitChar b → a = b := by
  decide

/-- No decimal digit prints as a minus sign. -/
theorem digitChar_ne_dash : ∀ a : Nat, a < 10 → Nat.digitChar a ≠ '-' := by decide

/-- Mapping `Nat.digitChar` over lists of decimal digits is injective. -/
theorem map_digitChar_inj :
    ∀ (l1 l2 : List Nat), (∀ x ∈ l1, x < 10) → (∀ x ∈ l2, x < 10) →
      l1.map Nat.digitChar = l2.map Nat.digitChar → l1 = l2 := by
  intro l1
  induction l1 with
  | nil =>
    intro l2 _ _ h
    cases l2 with
    | nil => rfl
    | cons b t => simp at h
  | cons a t ih =>
    intro l2 h1 h2 h
    cases l2 with
    | nil => simp at h
    | cons b t2 =>
      simp only [List.map_cons, List.cons.injEq] at h
      have ha : a = b :=
        digitChar_inj_lt a (h1 a (by simp)) b (h2 b (by simp)) h.1
      rw [ha, ih t2 (fun x hx => h1 x (by simp [hx])) (fun x hx => h2 x (by simp [hx])) h.2]

/-- Two character lists with the same `asString` are equal. -/
theorem asString_inj (l1 l2 : List Char) (h : l1.asString = l2.asString) : l1 = l2 := by
  have := congrArg String.data h
  simpa [List.asString] using this

/-- The printed digit list of a nonzero natural is never the single
character `0`. -/
theorem digits_map_rev_ne_zero_list {b : Nat} (hb : b ≠ 0) :
    ((Nat.digits 10 b).map Nat.digitChar).reverse ≠ ['0'] := by
  intro hEq
  have h1 : (Nat.digits 10 b).map Nat.digitChar = ['0'] := by
    have := congrArg List.reverse hEq
    simpa using this
  have h2 : Nat.digits 10 b = [0] := by
    cases hd : Nat.digits 10 b with
    | nil => rw [hd] at h1; simp at h1
    | cons d t =>
      rw [hd] at h1
      cases t with
      | cons d2 t2 => simp at h1
      | nil =>
        simp only [List.map_cons, List.map_nil, List.cons.injEq] at h1
        have hdlt : d < 10 :=
          Nat.digits_lt_base (by norm_num) (by rw [hd]; exact List.mem_cons_self d [])
        have hd0 : d = 0 := digitChar_inj_lt d hdlt 0 (by norm_num) (by rw [h1.1]; rfl)
        rw [hd0]
  have h3 := Nat.ofDigits_digits 10 b
  rw [h2] at h3
  simp [Nat.ofDigits] at h3
  exact hb h3.symm

/-- Distinct naturals have distinct decimal strings. -/
theorem natRepr_injective : Function.Injective Nat.repr := by
  intro a b h
  by_cases ha : a = 0 <;> by_cases hb : b = 0
  · rw [ha, hb]
  · exfalso
    subst ha
    rw [repr_eq_digitsString b hb] at h
    have h0 : (['0'] : List Char).asString = (((Nat.digits 10 b).map Nat.digitChar).reverse).asString := h
    exact digits_map_rev_ne_zero_list hb (asString_inj _ _ h0).symm
  · exfalso
    subst hb
    rw [repr_eq_digitsString a ha] at h
    have h0 : (['0'] : List Char).asString = (((Nat.digits 10 a).map Nat.digitChar).reverse).asString := h.symm
    exact digits_map_rev_ne_zero_list ha (asString_inj _ _ h0).symm
  · rw [repr_eq_digitsString a ha, repr_eq_digitsString b hb] at h
    have h1 := asString_inj _ _ h
    have h2 : (Nat.digits 10 a).map Nat.digitChar = (Nat.digits 10 b).map Nat.digitChar := by
      have := congrArg List.reverse h1
      simpa using this
    have h3 := map_digitChar_inj _ _
      (fun x hx => Nat.digits_lt_base (by norm_num) hx)
      (fun x hx => Nat.digits_lt_base (by norm_num) hx) h2
    have h4 := congrArg (Nat.ofDigits 10) h3
    rwa [Nat.ofDigits_digits, Nat.ofDigits_digits] at h4

/-- A natural number's decimal string contains no minus sign. -/
theorem dash_not_mem_repr (n : Nat) : '-' ∉ (Nat.repr n).data := by
  by_cases hn : n = 0
  · subst hn; decide
  · rw [repr_eq_digitsString n hn]
    intro hmem
    simp only [List.asString] at hmem
    rw [List.mem_reverse] at hmem
    obtain ⟨d, hd, hEq⟩ := List.mem_map.mp hmem
    exact digitChar_ne_dash d (Nat.digits_lt_base (by norm_num) hd) hEq

/-- Strings with equal character data are equal. -/
theorem string_eq_of_data (s t : String) (h : s.data = t.data) : s = t := by
  cases s
  cases t
  exact congrArg String.mk h

/-- Distinct integers have distinct `str()` representations. -/
theorem pyIntStr_injective : Function.Injective pyIntStr := by
  intro a b h
  unfold pyIntStr pyNatStr at h
  by_cases ha : a < 0 <;> by_cases hb : b < 0
  · rw [if_pos ha, if_pos hb] at h
    have hd := congrArg String.data h
    rw [String.data_append, String.data_append] at hd
    have hd2 : (Nat.repr a.natAbs).data = (Nat.repr b.natAbs).data := by
      simpa using hd
    have : Nat.repr a.natAbs = Nat.repr b.natAbs := string_eq_of_data _ _ hd2
    have := natRepr_injective this
    omega
  · exfalso
    rw [if_pos ha, if_neg hb] at h
    have hd := congrArg String.data h
    rw [String.data_append] at hd
    have : '-' ∈ (Nat.repr b.toNat).data := by
      rw [← hd]; simp
    exact dash_not_mem_repr _ this
  · exfalso
    rw [if_neg ha, if_pos hb] at h
    have hd := congrArg String.data h.symm
    rw [String.data_append] at hd
    have : '-' ∈ (Nat.repr a.toNat).data := by
      rw [← hd]; simp
    exact dash_not_mem_repr _ this
  · rw [if_neg ha, if_neg hb] at h
    have := natRepr_injective h
    omega

/-- `range(start, stop)` has `max 0 (stop - start)` elements. -/
theorem pyRange_length (a b : Int) : (pyRange a b).length = (b - a).toNat := by
  unfold pyRange
  rw [List.length_map, List.length_range]

/-- `range(start, stop)` is strictly ascending. -/
theorem pyRange_chain' (a b : Int) : List.Chain' (fun x y => x < y) (pyRange a b) := by
  apply List.Pairwise.chain'
  unfold pyRange
  rw [List.pairwise_map]
  refine List.Pairwise.imp ?_ (List.pairwise_lt_range _)
  intro i j hij
  have hc : (i : Int) < (j : Int) := by exact_mod_cast hij
  exact add_lt_add_left hc a

/-- `range(start, stop)` repeats no element. -/
theorem pyRange_nodup (a b : Int) : (pyRange a b).Nodup := by
  unfold pyRange
  refine List.Nodup.map ?_ (List.nodup_range _)
  intro i j hij
  have h2 : a + (i : Int) = a + (j : Int) := hij
  omega

/-- The candidate strings generated for a range are pairwise distinct. -/
theorem account_numbers_nodup (a b : Int) : (account_numbers a b).Nodup := by
  unfold account_numbers
  exact (pyRange_nodup a (b + 1)).map pyIntStr_injective

/-- A drained completion whose probe raised a `RequestException` increments
only `error_count`. -/
theorem runStep_requestException (net : String → NetResult) (s : AccountValidator)
    (c : String) (h : net c = NetResult.requestException) :
    runStep net s c = { s with error_count := s.error_count + 1 } := by
  unfold runStep
  rw [h]
  rfl

/-- A drained completion appends the candidate to the output store exactly
when its probe returned status 200. -/
theorem runStep_output (net : String → NetResult) (s : AccountValidator) (c : String) :
    (runStep net s c).output = s.output ++ (if status200 (net c) then [c] else []) := by
  unfold runStep
  cases hc : net c with
  | requestException => simp [fetch_response, status200]
  | response code hdrs =>
    simp only [fetch_response, status200]
    by_cases h200 : code = 200
    · subst h200
      simp [process_response]
    · simp only [process_response, if_neg h200, beq_iff_eq]
      split_ifs <;> simp [h200]

/-- Draining a list of candidates appends exactly the 200-status candidates,
in order, to the output store. -/
theorem foldl_runStep_output (net : String → NetResult) :
    ∀ (l : List String) (s : AccountValidator),
      (l.foldl (runStep net) s).output =
        s.output ++ l.filter (fun c => status200 (net c)) := by
  intro l
  induction l with
  | nil => intro s; simp
  | cons c t ih =>
    intro s
    rw [List.foldl_cons, ih, List.filter_cons]
    rw [runStep_output]
    by_cases h : status200 (net c) = true
    · simp [h]
    · simp [h]

/-- Draining candidates whose probes all raised increments `error_count` once
per candidate and changes nothing else. -/
theorem foldl_runStep_timeout (net : String → NetResult)
    (hnet : ∀ c, net c = NetResult.requestException) :
    ∀ (l : List String) (s : AccountValidator),
      (l.foldl (runStep net) s).checked_count = s.checked_count ∧
      (l.foldl (runStep net) s).error_count = s.error_count + l.length ∧
      (l.foldl (runStep net) s).valid_count = s.valid_count ∧
      (l.foldl (runStep net) s).rate_limit_count = s.rate_limit_count ∧
      (l.foldl (runStep net) s).output = s.output := by
  intro l
  induction l with
  | nil => intro s; simp
  | cons c t ih =>
    intro s
    rw [List.foldl_cons, runStep_requestException net s c (hnet c)]
    obtain ⟨h1, h2, h3, h4, h5⟩ := ih { s with error_count := s.error_count + 1 }
    refine ⟨h1, ?_, h3, h4, h5⟩
    rw [h2]
    simp
    omega

/-- C1, counterexample: in the end-to-end scenario over the 5-candidate range
`[1000000000000000, 1000000000000004]` in which every probe ends in a
transport error, the final `checked_count` is `0`, not `5` as claimed:
`fetch_response` increments `checked_count` only on the success path
(src/validgenfinal.py:182), while a `RequestException` increments
`error_count` instead (line 185). -/
theorem c1_counterexample :
    (run_validation timeoutRange netTimeout).checked_count = 0 ∧
    ¬ (run_validation timeoutRange netTimeout).checked_count = 5 := by
  decide

/-- C1, amended: a completed probe increments `checked` exactly once when it
yields a status code; a probe ending in a transport error leaves `checked`
unchanged and increments `errorCount` by one.  Consequently, in a run from a
fresh state in which every probe of the configured candidates ends in a
transport error, the final metrics are checked unchanged (0), errorCount
increased by the number of candidates (5), valid unchanged (0), and the
output store empty. -/
theorem c1_checked_increment :
    (∀ (s : AccountValidator) (acct : String) (code : Nat) (hdrs : List (String × String)),
      (fetch_response s acct (NetResult.response code hdrs)).1.checked_count = s.checked_count + 1 ∧
      (fetch_response s acct (NetResult.response code hdrs)).1.error_count = s.error_count) ∧
    (∀ (s : AccountValidator) (acct : String),
      (fetch_response s acct NetResult.requestException).1.checked_count = s.checked_count ∧
      (fetch_response s acct NetResult.requestException).1.error_count = s.error_count + 1) ∧
    (∀ (s : AccountValidator) (net : String → NetResult),
      (∀ c, net c = NetResult.requestException) →
      (run_validation s net).checked_count = s.checked_count ∧
      (run_validation s net).error_count =
        s.error_count + (account_numbers s.range_start s.range_end).length ∧
      (run_validation s net).valid_count = s.valid_count ∧
      (run_validation s net).output = []) := by
  refine ⟨fun s acct code hdrs => ⟨rfl, rfl⟩, fun s acct => ⟨rfl, rfl⟩, ?_⟩
  intro s net hnet
  have h := foldl_runStep_timeout net hnet (account_numbers s.range_start s.range_end)
    { setup_files s with is_running := true }
  exact ⟨h.1, h.2.1, h.2.2.1, h.2.2.2.2⟩

/-- C1, witness: the amended theorem instantiated on the concrete 5-candidate
all-timeout scenario gives checked=0, errorCount=5, valid=0, empty output. -/
theorem c1_witness :
    (run_validation timeoutRange netTimeout).checked_count = 0 ∧
    (run_validation timeoutRange netTimeout).error_count = 5 ∧
    (run_validation timeoutRange netTimeout).valid_count = 0 ∧
    (run_validation timeoutRange netTimeout).output = [] := by
  have h := c1_checked_increment.2.2 timeoutRange netTimeout (fun c => rfl)
  refine ⟨h.1, ?_, h.2.2.1, h.2.2.2⟩
  rw [h.2.1]
  decide

/-- C2: for every processed outcome carrying a status code (probes are
submitted with `persistRaises = false`, the non-raising execution): status 200
appends exactly one line — the candidate — to the output store and increments
`valid` by exactly one; status 404 mutates nothing; status 429 increments
`rateLimited` by one and nothing else; any other status mutates neither
counters nor the output store. -/
theorem c2_classification :
    ∀ (s : AccountValidator) (acct : String) (code : Nat)
      (hdrs : Option (List (String × String))),
      (code = 200 → process_response s acct code hdrs false =
        { s with output := s.output ++ [acct], valid_count := s.valid_count + 1 }) ∧
      (code = 404 → process_response s acct code hdrs false = s) ∧
      (code = 429 → process_response s acct code hdrs false =
        { s with rate_limit_count := s.rate_limit_count + 1 }) ∧
      (code ≠ 200 → code ≠ 404 → code ≠ 429 →
        process_response s acct code hdrs false = s) := by
  intro s acct code hdrs
  refine ⟨fun h => by subst h; rfl, fun h => by subst h; rfl, fun h => by subst h; rfl,
    fun h1 h2 h3 => ?_⟩
  unfold process_response
  rw [if_neg h1, if_neg h3, if_neg h2]

/-- C2, witness: instantiated at status 200 and status 404 on the fresh
state. -/
theorem c2_witness :
    process_response initState "1000000000000000" 200 none false =
      { initState with output := ["1000000000000000"], valid_count := 1 } ∧
    process_response initState "1000000000000000" 404 none false = initState := by
  have h1 := (c2_classification initState "1000000000000000" 200 none).1 rfl
  have h2 := (c2_classification initState "1000000000000000" 404 none).2.1 rfl
  exact ⟨h1, h2⟩

/-- C3, counterexample: a bound that is not 16 decimal digits need not raise
`InvalidRangeError`.  The start bound `-999999999999999` has 15 decimal
digits, but its printed form counts the minus sign, so the code's width check
`len(str(start)) != 16` (src/validgenfinal.py:141) passes; `start >= end`
also fails against the 16-digit end bound, and `set_custom_range` returns
`True` and installs the range — no error is raised or surfaced. -/
theorem c3_counterexample :
    decimalDigits (-999999999999999) = 15 ∧
    pyStrLen (-999999999999999) = 16 ∧
    set_custom_range initState "-999999999999999" "1000000000000001" =
      (true, { initState with range_start := -999999999999999,
                              range_end := 1000000000000001 }) := by
  decide

/-- C3, amended: for every attempted range configuration whose parsed bounds
satisfy start = end, start > end, or either bound's printed decimal width
`len(str(x))` — the minus sign counted for negative bounds — differing
from 16, an `InvalidRangeError` is raised (the bound checks of
src/validgenfinal.py:141-147 classify to `some` error), it is surfaced to the
configuration caller (`False` is returned), and the run is not started (the
state, including `is_running` and both bounds, is unchanged). -/
theorem c3_invalid_range :
    ∀ (s : AccountValidator) (a b : String) (start end_ : Int),
      pyInt a = some start → pyInt b = some end_ →
      (start = end_ ∨ start > end_ ∨ pyStrLen start ≠ 16 ∨ pyStrLen end_ ≠ 16) →
      rangeError start end_ ≠ none ∧ set_custom_range s a b = (false, s) := by
  intro s a b start end_ ha hb hcond
  have hkey : ∀ (P : Prop), (pyStrLen start ≠ 16 ∨ pyStrLen end_ ≠ 16 → P) →
      (start ≥ end_ → P) → P := by
    intro P hw hge
    rcases hcond with h | h | h | h
    · exact hge (le_of_eq h.symm)
    · exact hge (le_of_lt h)
    · exact hw (Or.inl h)
    · exact hw (Or.inr h)
  constructor
  · unfold rangeError
    split_ifs with h1 h2
    · simp
    · simp
    · exact fun _ => hkey False (fun hw => h1 hw) (fun hge => h2 hge)
  · simp only [set_custom_range, ha, hb]
    split_ifs with h1 h2
    · rfl
    · rfl
    · exact absurd trivial (fun _ => hkey False (fun hw => h1 hw) (fun hge => h2 hge))

/-- C3, witness: instantiated at the reversed 16-digit bounds
`1000000000000002 > 1000000000000001`. -/
theorem c3_witness :
    rangeError 1000000000000002 1000000000000001 ≠ none ∧
    set_custom_range initState "1000000000000002" "1000000000000001" =
      (false, initState) :=
  c3_invalid_range initState "1000000000000002" "1000000000000001"
    1000000000000002 1000000000000001 (by decide) (by decide)
    (Or.inr (Or.inl (by decide)))

/-- C4: for every valid pair `(start, end)` with `start < end` and equal
printed digit width, the candidate generator produces exactly
`end - start + 1` candidates, pairwise distinct, which are the decimal
strings of the strictly ascending integer sequence
`range(start, end + 1)`; regenerating from the same bounds yields the same
sequence (the generator is a pure function of the bounds). -/
theorem c4_range_generator :
    ∀ (start end_ : Int), start < end_ → pyStrLen start = pyStrLen end_ →
      ((account_numbers start end_).length : Int) = end_ - start + 1 ∧
      (account_numbers start end_).Nodup ∧
      account_numbers start end_ = (pyRange start (end_ + 1)).map pyIntStr ∧
      List.Chain' (fun x y => x < y) (pyRange start (end_ + 1)) ∧
      account_numbers start end_ = account_numbers start end_ := by
  intro start end_ h1 _h2
  refine ⟨?_, account_numbers_nodup start end_, rfl, pyRange_chain' _ _, rfl⟩
  unfold account_numbers
  rw [List.length_map, pyRange_length]
  omega

/-- C4, witness: instantiated on the 5-candidate range
`[1000000000000000, 1000000000000004]`. -/
theorem c4_witness :
    ((account_numbers 1000000000000000 1000000000000004).length : Int) =
      1000000000000004 - 1000000000000000 + 1 ∧
    (account_numbers 1000000000000000 1000000000000004).Nodup := by
  have h := c4_range_generator 1000000000000000 1000000000000004 (by decide) (by decide)
  exact ⟨h.1, h.2.1⟩

/-- C5: the unsynchronized `count += 1` increments lose updates.  Running
N = 2 concurrent increments under the interleaved schedule T0-load, T1-load,
T0-store, T1-store completes both threads yet leaves the counter at 1, not 2;
the serial schedule T0-load, T0-store, T1-load, T1-store yields 2.  This
refutes the claim that N concurrent increments always yield exactly N. -/
theorem c5_lost_update :
    (runSched [0, 1, 0, 1]).counter = 1 ∧
    (runSched [0, 1, 0, 1]).threads 0 = ThState.done ∧
    (runSched [0, 1, 0, 1]).threads 1 = ThState.done ∧
    (runSched [0, 0, 1, 1]).counter = 2 := by
  refine ⟨rfl, rfl, rfl, rfl⟩

/-- C6: for every pair of integer inputs to thread configuration, the
resulting fetch worker count lies in [1, 50] and the process worker count in
[1, 20]; inputs below 1 are raised to 1, inputs above the maximum are lowered
to 50 (fetch) or 20 (process), and in-range inputs are kept as given. -/
theorem c6_thread_clamping :
    ∀ (s : AccountValidator) (a b : String) (f p : Int),
      pyInt a = some f → pyInt b = some p →
      (1 ≤ (configure_threads s a b).2.fetch_workers ∧
        (configure_threads s a b).2.fetch_workers ≤ 50 ∧
        1 ≤ (configure_threads s a b).2.process_workers ∧
        (configure_threads s a b).2.process_workers ≤ 20) ∧
      (f < 1 → (configure_threads s a b).2.fetch_workers = 1) ∧
      (50 < f → (configure_threads s a b).2.fetch_workers = 50) ∧
      (1 ≤ f → f ≤ 50 → (configure_threads s a b).2.fetch_workers = f) ∧
      (p < 1 → (configure_threads s a b).2.process_workers = 1) ∧
      (20 < p → (configure_threads s a b).2.process_workers = 20) ∧
      (1 ≤ p → p ≤ 20 → (configure_threads s a b).2.process_workers = p) := by
  intro s a b f p ha hb
  simp only [configure_threads, ha, hb]
  refine ⟨⟨by omega, by omega, by omega, by omega⟩, fun h => by omega, fun h => by omega,
    fun h h' => by omega, fun h => by omega, fun h => by omega, fun h h' => by omega⟩

/-- C6, witness: instantiated at the inputs 0 (raised to 1) and 100
(lowered to 20). -/
theorem c6_witness :
    (configure_threads initState "0" "100").2.fetch_workers = 1 ∧
    (configure_threads initState "0" "100").2.process_workers = 20 := by
  have h := c6_thread_clamping initState "0" "100" 0 100 (by decide) (by decide)
  exact ⟨h.2.1 (by decide), h.2.2.2.2.2.1 (by decide)⟩

/-- C7: when an exception is raised while processing an outcome (the file
append of the status-200 branch raises, `persistRaises = true`), then
`errorCount` is incremented by exactly one, the exception is swallowed (the
function returns a state rather than aborting), and no other counter nor the
output store is mutated. -/
theorem c7_processing_error :
    ∀ (s : AccountValidator) (acct : String) (hdrs : Option (List (String × String))),
      (process_response s acct 200 hdrs true).error_count = s.error_count + 1 ∧
      (process_response s acct 200 hdrs true).valid_count = s.valid_count ∧
      (process_response s acct 200 hdrs true).checked_count = s.checked_count ∧
      (process_response s acct 200 hdrs true).rate_limit_count = s.rate_limit_count ∧
      (process_response s acct 200 hdrs true).output = s.output := by
  intro s acct hdrs
  exact ⟨rfl, rfl, rfl, rfl, rfl⟩

/-- C8: the output store is truncated to empty at the start of each run
(`setup_files` clears it as part of entering Running); a completed run's
output is exactly the 200-status candidates, one per line, in drain order —
so it is written only for status-200 outcomes and only ever appended to; and
the run never reads the prior output store (the run result is independent of
the initial output contents). -/
theorem c8_output_store :
    (∀ s : AccountValidator, (setup_files s).output = []) ∧
    (∀ (s : AccountValidator) (net : String → NetResult),
      (run_validation s net).output =
        (account_numbers s.range_start s.range_end).filter (fun c => status200 (net c))) ∧
    (∀ (s : AccountValidator) (out2 : List String) (net : String → NetResult),
      run_validation { s with output := out2 } net = run_validation s net) := by
  refine ⟨fun s => rfl, ?_, fun s out2 net => rfl⟩
  intro s net
  have h := foldl_runStep_output net (account_numbers s.range_start s.range_end)
    { setup_files s with is_running := true }
  exact h.trans (List.nil_append _)

/-- C9: configuration updates are atomic on error.  Every rejected range
configuration (unparsable bound, bad width, or start not below end) and every
unparsable thread configuration returns `False` and leaves the whole state —
in particular `range_start`, `range_end`, `fetch_workers`,
`process_workers` — unchanged; on success both range bounds, respectively
both worker counts, are updated together. -/
theorem c9_config_atomicity :
    (∀ (s : AccountValidator) (a b : String),
      (set_custom_range s a b).1 = false → (set_custom_range s a b).2 = s) ∧
    (∀ (s : AccountValidator) (a b : String),
      (configure_threads s a b).1 = false → (configure_threads s a b).2 = s) ∧
    (∀ (s : AccountValidator) (a b : String) (start end_ : Int),
      pyInt a = some start → pyInt b = some end_ →
      pyStrLen start = 16 → pyStrLen end_ = 16 → start < end_ →
      set_custom_range s a b =
        (true, { s with range_start := start, range_end := end_ })) ∧
    (∀ (s : AccountValidator) (a b : String),
      (pyInt a = none ∨ pyInt b = none) → configure_threads s a b = (false, s)) ∧
    (∀ (s : AccountValidator) (a b : String) (f p : Int),
      pyInt a = some f → pyInt b = some p →
      configure_threads s a b =
        (true, { s with fetch_workers := max 1 (min f 50),
                        process_workers := max 1 (min p 20) })) := by
  refine ⟨?_, ?_, ?_, ?_, ?_⟩
  · intro s a b h
    cases hpa : pyInt a with
    | none => simp [set_custom_range, hpa]
    | some start =>
      cases hpb : pyInt b with
      | none => simp [set_custom_range, hpa, hpb]
      | some end_ =>
        simp only [set_custom_range, hpa, hpb] at h ⊢
        split_ifs at h ⊢
        · rfl
        · rfl
  · intro s a b h
    cases hpa : pyInt a with
    | none => simp [configure_threads, hpa]
    | some f =>
      cases hpb : pyInt b with
      | none => simp [configure_threads, hpa, hpb]
      | some p =>
        simp only [configure_threads, hpa, hpb] at h
        simp at h
  · intro s a b start end_ ha hb h3 h4 h5
    simp only [set_custom_range, ha, hb]
    rw [if_neg (by simp [h3, h4]), if_neg (by omega)]
  · intro s a b h
    rcases h with h | h
    · cases hpb : pyInt b <;> simp [configure_threads, h, hpb]
    · cases hpa : pyInt a <;> simp [configure_threads, hpa, h]
  · intro s a b f p ha hb
    simp only [configure_threads, ha, hb]

/-- C9, witness: instantiated at an unparsable bound, an unparsable worker
count, and one successful configuration of each kind. -/
theorem c9_witness :
    (set_custom_range initState "abc" "1000000000000001").2 = initState ∧
    (configure_threads initState "x" "5").2 = initState ∧
    set_custom_range initState "1000000000000000" "1000000000000004" =
      (true, { initState with range_start := 1000000000000000,
                              range_end := 1000000000000004 }) ∧
    configure_threads initState "abc" "5" = (false, initState) := by
  refine ⟨c9_config_atomicity.1 initState "abc" "1000000000000001" (by decide),
    c9_config_atomicity.2.1 initState "x" "5" (by decide), ?_,
    c9_config_atomicity.2.2.2.1 initState "abc" "5" (Or.inl (by decide))⟩
  exact c9_config_atomicity.2.2.1 initState "1000000000000000" "1000000000000004"
    1000000000000000 1000000000000004 (by decide) (by decide) (by decide) (by decide)
    (by decide)

/-- C10: every derived-statistic computation is division-guarded and total:
each of the four divisions of the statistics displays returns a value and
never `ZeroDivisionError`; the throughput rate is 0 when elapsed time is not
positive, the checked percentage is 0 when the total account count is not
positive, and the valid percentage is 0 when `checked` is 0. -/
theorem c10_division_guards :
    ∀ (checked valid : Nat) (total : Int) (elapsed : Rat),
      (∃ q, stats_rate checked elapsed = .ok q) ∧
      (∃ q, final_checked_pct checked total = .ok q) ∧
      (∃ q, final_valid_pct valid checked = .ok q) ∧
      (∃ q, final_throughput checked elapsed = .ok q) ∧
      (elapsed ≤ 0 → stats_rate checked elapsed = .ok 0) ∧
      (total ≤ 0 → final_checked_pct checked total = .ok 0) ∧
      (checked = 0 → final_valid_pct valid checked = .ok 0) := by
  intro checked valid total elapsed
  refine ⟨?_, ?_, ?_, ?_, ?_, ?_, ?_⟩
  · unfold stats_rate pyDiv
    split_ifs with h1 h2
    · exact absurd (h2 ▸ h1) (lt_irrefl 0)
    · exact ⟨_, rfl⟩
    · exact ⟨_, rfl⟩
  · unfold final_checked_pct pyDiv
    split_ifs with h1 h2
    · exfalso
      have hc : (0 : Rat) < (total : Rat) := by exact_mod_cast h1
      rw [h2] at hc
      exact lt_irrefl 0 hc
    · exact ⟨_, rfl⟩
    · exact ⟨_, rfl⟩
  · unfold final_valid_pct pyDiv
    split_ifs with h1 h2
    · exfalso
      have : (checked : Rat) ≠ 0 := by
        simpa using Nat.pos_iff_ne_zero.mp h1
      exact this h2
    · exact ⟨_, rfl⟩
    · exact ⟨_, rfl⟩
  · unfold final_throughput pyDiv
    split_ifs with h1 h2
    · exact absurd (h2 ▸ h1) (lt_irrefl 0)
    · exact ⟨_, rfl⟩
    · exact ⟨_, rfl⟩
  · intro h
    unfold stats_rate
    rw [if_neg (not_lt.mpr h)]
  · intro h
    unfold final_checked_pct
    rw [if_neg (not_lt.mpr h)]
  · intro h
    subst h
    rfl

/-- C10, witness: the guards instantiated at zero elapsed time, zero total,
zero checked, and a positive elapsed time. -/
theorem c10_witness :
    stats_rate 7 0 = .ok 0 ∧ final_checked_pct 7 0 = .ok 0 ∧
    final_valid_pct 7 0 = .ok 0 ∧ (∃ q, stats_rate 7 2 = .ok q) := by
  refine ⟨(c10_division_guards 7 7 0 0).2.2.2.2.1 (le_refl 0),
    (c10_division_guards 7 7 0 0).2.2.2.2.2.1 (le_refl 0),
    (c10_division_guards 0 7 0 0).2.2.2.2.2.2 rfl,
    (c10_division_guards 7 7 0 2).1⟩
